import Mathlib

/-!
Shallow embedding of the SPECTRE client (the JavaScript modules under
static/app) together with proofs about its undo/redo engine, the editor
synchronization handlers, the WebSocket reconnection policy, the table
reassembly routine and the column-width sanitization logic.

Conventions used throughout:
* JavaScript objects used as string-keyed maps become functions
  `String → Option α`; a key that was never assigned maps to `none`
  (JavaScript `undefined`).
* JavaScript arrays become Lean lists; `push` appends at the end,
  `pop` removes the last element, `shift` removes the first element.
* Handlers that send WebSocket messages return the list of messages
  they emit, in order, alongside the updated client state.
-/

namespace Spectre

/-- Pointwise update of a string-keyed map, mirroring a JavaScript object
property assignment `m[k] = v` (or deletion, when `v` is `none`). -/
def updFun {α : Type} (m : String → α) (k : String) (v : α) : String → α :=
  fun x => if x = k then v else m x

/-! ### undo_redo.js -/

/-- undo_redo.js line 1: `const MAX_HISTORY = 5000`. -/
def MAX_HISTORY : Nat := 5000

/-- The module-level `undoStacks` / `redoStacks` objects of undo_redo.js.
A block id that was never initialized maps to `none` (JavaScript
`undefined`); an initialized but empty stack maps to `some []`. -/
structure UndoRedoState where
  undoStacks : String → Option (List String)
  redoStacks : String → Option (List String)

/-- The initial value of the module state: both maps are empty objects. -/
def initialUndoRedo : UndoRedoState :=
  { undoStacks := fun _ => none, redoStacks := fun _ => none }

/-- undo_redo.js `initStack`: creates the two stack arrays for a block when
the undo entry is missing; does nothing otherwise. -/
def initStack (st : UndoRedoState) (blockId : String) : UndoRedoState :=
  match st.undoStacks blockId with
  | some _ => st
  | none =>
    { undoStacks := updFun st.undoStacks blockId (some [])
      redoStacks := updFun st.redoStacks blockId (some []) }

/-- undo_redo.js `pushState`: ensures the stacks exist, pushes the first
state unconditionally, otherwise pushes only when the new state differs
from the top of the stack, evicting the oldest entry past `MAX_HISTORY`
and clearing a non-empty redo stack. -/
def pushState (st0 : UndoRedoState) (blockId newState : String) : UndoRedoState :=
  let st := initStack st0 blockId
  let currentStack := (st.undoStacks blockId).getD []
  if currentStack.length = 0 then
    { undoStacks := updFun st.undoStacks blockId (some [newState])
      redoStacks := updFun st.redoStacks blockId (some []) }
  else if currentStack.getLast? ≠ some newState then
    let pushed := currentStack ++ [newState]
    let bounded := if MAX_HISTORY < pushed.length then pushed.tail else pushed
    let newRedo :=
      match st.redoStacks blockId with
      | some l => if 0 < l.length then updFun st.redoStacks blockId (some []) else st.redoStacks
      | none => st.redoStacks
    { undoStacks := updFun st.undoStacks blockId (some bounded)
      redoStacks := newRedo }
  else st

/-- undo_redo.js `undo`: returns `null` when the undo stack is missing or
has at most one entry; otherwise pops the current state onto the redo
stack and returns the new top (the state to apply).  The redo stack is
read with an empty default: in the JavaScript module the two stacks are
always created together, so the default is never exercised. -/
def undo (st : UndoRedoState) (blockId : String) : Option String × UndoRedoState :=
  match st.undoStacks blockId with
  | none => (none, st)
  | some currentStack =>
    if currentStack.length ≤ 1 then (none, st)
    else
      let currentState := currentStack.getLast?
      let newUndo := currentStack.dropLast
      let newRedo := (st.redoStacks blockId).getD [] ++ currentState.toList
      (newUndo.getLast?,
        { undoStacks := updFun st.undoStacks blockId (some newUndo)
          redoStacks := updFun st.redoStacks blockId (some newRedo) })

/-- undo_redo.js `redo`: returns `null` when the redo stack is missing or
empty; otherwise pops the next state onto the undo stack and returns it. -/
def redo (st : UndoRedoState) (blockId : String) : Option String × UndoRedoState :=
  match st.redoStacks blockId with
  | none => (none, st)
  | some redoStack =>
    if redoStack.length = 0 then (none, st)
    else
      let nextState := redoStack.getLast?
      let newRedo := redoStack.dropLast
      let newUndo := (st.undoStacks blockId).getD [] ++ nextState.toList
      (nextState,
        { undoStacks := updFun st.undoStacks blockId (some newUndo)
          redoStacks := updFun st.redoStacks blockId (some newRedo) })

/-- undo_redo.js `clearBlockHistory`: resets each of the two stacks of a
block to an empty array, when that stack object exists. -/
def clearBlockHistory (st : UndoRedoState) (blockId : String) : UndoRedoState :=
  { undoStacks :=
      match st.undoStacks blockId with
      | some _ => updFun st.undoStacks blockId (some [])
      | none => st.undoStacks
    redoStacks :=
      match st.redoStacks blockId with
      | some _ => updFun st.redoStacks blockId (some [])
      | none => st.redoStacks }

/-- undo_redo.js `clearStacks`: replaces both maps with fresh empty
objects. -/
def clearStacks (_st : UndoRedoState) : UndoRedoState := initialUndoRedo

/-- The new undo stack of the touched block after `pushState`, as a pure
function of the previous stack contents (missing stack ≡ empty). -/
def pushResult (cur : List String) (s : String) : List String :=
  if cur.length = 0 then [s]
  else if cur.getLast? ≠ some s then
    let pushed := cur ++ [s]
    if MAX_HISTORY < pushed.length then pushed.tail else pushed
  else cur

/-- The new redo entry of the touched block after `pushState`, as a pure
function of the previous undo stack, previous redo entry and pushed
state. -/
def pushRedoResult (cur : List String) (redo0 : Option (List String)) (s : String) :
    Option (List String) :=
  if cur.length = 0 then some []
  else if cur.getLast? ≠ some s then
    match redo0 with
    | some l => if 0 < l.length then some [] else some l
    | none => none
  else redo0

/-! ### editor.js and websocket.js: client state -/

/-- A JavaScript string-or-nullish value.  `undef` models `undefined`
(e.g. a payload field that is absent), `null` models `null` (e.g. the
initial `currentUsername` in websocket.js).  Strict equality `===` is
plain constructor equality: `undefined === undefined` and
`null === null` hold, `undefined === null` does not. -/
inductive JsStr where
  | undef : JsStr
  | null : JsStr
  | str : String → JsStr
deriving DecidableEq, Repr

/-- Template-literal coercion of a `JsStr`, as in `Locked by ${user}`. -/
def JsStr.render : JsStr → String
  | JsStr.undef => "undefined"
  | JsStr.null => "null"
  | JsStr.str s => s

/-- Drops a leading pattern from a character list, returning the rest
when the list starts with the pattern. -/
def stripPat : List Char → List Char → Option (List Char)
  | [], l => some l
  | _ :: _, [] => none
  | p :: ps, c :: cs => if p = c then stripPat ps cs else none

/-- Replaces the first occurrence of a pattern in a character list,
mirroring JavaScript `String.prototype.replace` with a string pattern. -/
def replaceFirstAux (pat rep : List Char) : List Char → List Char
  | [] => []
  | c :: cs =>
    match stripPat pat (c :: cs) with
    | some rest => rep ++ rest
    | none => c :: replaceFirstAux pat rep cs

/-- JavaScript `s.replace(pat, rep)` for string patterns: replaces only
the first occurrence. -/
def replaceFirst (s pat rep : String) : String :=
  String.mk (replaceFirstAux pat.data rep.data s.data)

/-- The slice of a DOM block element that the editor logic reads and
writes: its tag, `data-block-type`, editability, lock styling and
rendered content.  `classes` models the element's classList; `title`
is the DOM title attribute ("" when unset, as `removeAttribute`
leaves it). -/
structure BlockElem where
  tagName : String
  blockType : Option String
  contentEditable : Bool
  classes : List String
  title : String
  content : String
deriving DecidableEq, Repr

/-- The block metadata record assembled by editor.js `getBlockMetadata`
and carried in `update_document` payloads.  The numeric dataset fields
(order, level, row/col indices) are faithfully representable but no
claim in this development depends on them, so only the fields the
claims read are carried. -/
structure BlockMetadata where
  block_id : String
  block_type : String
  style_classes : String
deriving DecidableEq, Repr

/-- An outgoing WebSocket message relevant to the claims, as produced by
`ws.sendMessage(type, payload)` in editor.js.  `document_id` is
`Option String` because editor.js passes `currentDocId`, which can be
`null`. -/
inductive Msg where
  | lock_block : Option String → String → Msg
  | unlock_block : Option String → String → Msg
  | update_document : Option String → String → String → Option BlockMetadata → Msg
deriving DecidableEq, Repr

/-- The editor-module state: undo/redo stacks, the loaded document, the
username confirmed over the WebSocket, the DOM (blocks by id), the
metadata cache, the optimistic local lock map, and the typing state
(`typingState.currentBlockId`, `charCountSinceLastUpdate`, and the idle
timer, recorded as the delay it was armed with). -/
structure EditorState where
  ur : UndoRedoState
  currentDocId : Option String
  currentUsername : JsStr
  dom : String → Option BlockElem
  metaCache : String → Option BlockMetadata
  activeLocks : String → Bool
  typingBlockId : Option String
  charCount : Nat
  timer : Option Nat

/-- editor.js `updateBlockMetadataCache`: stores metadata under the block
id, defaulting the record's own `block_id` field when it is empty
(JavaScript `metadata.block_id = metadata.block_id || blockId`). -/
def updateMetaCache (cache : String → Option BlockMetadata) (blockId : String)
    (m : BlockMetadata) : String → Option BlockMetadata :=
  if blockId = "" then cache
  else
    let m2 := if m.block_id = "" then { m with block_id := blockId } else m
    updFun cache blockId (some m2)

/-- editor.js `getBlockMetadata`, read-only part: returns the cached
record when present, otherwise assembles one from the element.  (The
JavaScript function also writes the assembled record into the cache; no
claim observes that side effect, so the model is the pure read.) -/
def getBlockMetadata (st : EditorState) (blockId : String) : Option BlockMetadata :=
  match st.dom blockId with
  | none => none
  | some elem =>
    match st.metaCache blockId with
    | some m => some m
    | none =>
      some { block_id := blockId
             block_type := elem.blockType.getD "text"
             style_classes := String.intercalate " " elem.classes }

/-- editor.js `applyLockStyle`: marks the element non-editable, adds the
`locked` class and records the locker in the title attribute. -/
def applyLockStyle (elem : BlockElem) (lockedBy : JsStr) : BlockElem :=
  { elem with
    contentEditable := false
    classes := if "locked" ∈ elem.classes then elem.classes else elem.classes ++ ["locked"]
    title := "Locked by " ++ lockedBy.render }

/-- editor.js `removeLockStyle`: restores editability except for the
intrinsically non-editable block kinds, and strips the lock styling. -/
def removeLockStyle (elem : BlockElem) : BlockElem :=
  let editableKind :=
    elem.tagName ≠ "HR" ∧ elem.blockType ≠ some "table-options" ∧ elem.blockType ≠ some "table"
  let classes1 := elem.classes.filter (fun c => c ≠ "locked")
  if editableKind then
    { elem with
      contentEditable := true
      classes := if "editable" ∈ classes1 then classes1 else classes1 ++ ["editable"]
      title := "" }
  else
    { elem with
      contentEditable := false
      classes := classes1.filter (fun c => c ≠ "editable")
      title := "" }

/-- editor.js `isBlockLockedByOther`: a block counts as locked by another
session when its element is non-editable, carries the `locked` class,
and the locker read back from the title attribute differs from the
local username. -/
def isBlockLockedByOther (st : EditorState) (blockId : String) : Bool :=
  match st.dom blockId with
  | none => false
  | some elem =>
    if elem.contentEditable = false ∧ "locked" ∈ elem.classes then
      let locker := if elem.title ≠ "" then replaceFirst elem.title "Locked by " "" else "another user"
      decide (JsStr.str locker ≠ st.currentUsername)
    else false

/-- Payload of a `document_updated` broadcast. -/
structure RemoteUpdatePayload where
  document_id : String
  block_id : String
  content_html : String
  metadata : Option BlockMetadata
deriving DecidableEq, Repr

/-- editor.js `handleRemoteUpdate`: ignores updates for other documents,
clears the block's undo/redo history, refuses to overwrite the block
the user is typing in, and otherwise applies the remote content and
metadata to the DOM.  (The heading re-render and alt-text sync touch
only DOM details no claim observes and are elided; selection
save/restore has no modelled effect.) -/
def handleRemoteUpdate (st : EditorState) (p : RemoteUpdatePayload) : EditorState :=
  match st.currentDocId with
  | none => st
  | some docId =>
    if p.document_id ≠ docId then st
    else
      let st1 := { st with ur := clearBlockHistory st.ur p.block_id }
      if st1.typingBlockId = some p.block_id then st1
      else
        match st1.dom p.block_id with
        | none => st1
        | some elem =>
          let newMeta := p.metadata.getD { block_id := "", block_type := "", style_classes := "" }
          { st1 with
            dom := updFun st1.dom p.block_id
              (some { elem with
                      content := p.content_html
                      classes := (newMeta.style_classes.splitOn " ").filter (fun c => c ≠ "") })
            metaCache := updateMetaCache st1.metaCache p.block_id newMeta }

/-- The three lock-event types dispatched to editor.js `handleLockUpdate`. -/
inductive LockEventType where
  | block_locked : LockEventType
  | block_unlocked : LockEventType
  | lock_denied : LockEventType
deriving DecidableEq, Repr

/-- Payload of a lock broadcast; `locked_by` / `unlocked_by` are absent
(`undef`) in the events that do not carry them. -/
structure LockPayload where
  document_id : String
  block_id : String
  locked_by : JsStr
  unlocked_by : JsStr
deriving DecidableEq, Repr

/-- editor.js `handleLockUpdate`: ignores events for other documents or
for block ids with no DOM element; classifies the event as the local
session's own via strict comparison of `locked_by` / `unlocked_by` with
the current username; a lock by another party (and a denied lock)
clears that block's local history and applies the lock styling. -/
def handleLockUpdate (st : EditorState) (type : LockEventType) (p : LockPayload) : EditorState :=
  match st.currentDocId with
  | none => st
  | some docId =>
    if p.document_id ≠ docId then st
    else
      match st.dom p.block_id with
      | none => st
      | some elem =>
        let isOwnLockEvent :=
          p.locked_by = st.currentUsername ∨ p.unlocked_by = st.currentUsername
        match type with
        | LockEventType.block_locked =>
          if ¬ isOwnLockEvent then
            { st with
              ur := clearBlockHistory st.ur p.block_id
              dom := updFun st.dom p.block_id (some (applyLockStyle elem p.locked_by))
              activeLocks := updFun st.activeLocks p.block_id false }
          else
            { st with
              dom := updFun st.dom p.block_id (some (removeLockStyle elem))
              activeLocks := updFun st.activeLocks p.block_id true }
        | LockEventType.block_unlocked =>
          { st with
            dom := updFun st.dom p.block_id (some (removeLockStyle elem))
            activeLocks := updFun st.activeLocks p.block_id false }
        | LockEventType.lock_denied =>
          { st with
            ur := clearBlockHistory st.ur p.block_id
            dom := updFun st.dom p.block_id (some (applyLockStyle elem p.locked_by))
            activeLocks := updFun st.activeLocks p.block_id false }

/-! ### editor.js: keyboard undo/redo (handleKeyDown) -/

/-- The two global actions reachable through Ctrl+Z / Ctrl+Y. -/
inductive ActionType where
  | undo : ActionType
  | redo : ActionType
deriving DecidableEq, Repr

/-- Result of the global undo/redo handler: the new client state, the
WebSocket messages emitted in order, and whether the handler aborted
with a thrown TypeError (editor.js calls `undoRedo.clearAllRedoStacks()`,
a function undo_redo.js does not export, on two of its paths). -/
structure GlobalActionResult where
  state : EditorState
  msgs : List Msg
  threw : Bool

/-- The ternary `(actionType === 'undo') ? undoRedo.undo(target) :
undoRedo.redo(target)` used twice inside `handleKeyDown`. -/
def actionResult (st : EditorState) (action : ActionType) (target : String) :
    Option String × UndoRedoState :=
  match action with
  | ActionType.undo => undo st.ur target
  | ActionType.redo => redo st.ur target

/-- editor.js `sendSpecificBlockUpdate`: emits `update_document` unless no
document is loaded. -/
def sendSpecificBlockUpdate (st : EditorState) (blockId content : String)
    (metadata : Option BlockMetadata) : List Msg :=
  match st.currentDocId with
  | none => []
  | some d => [Msg.update_document (some d) blockId content metadata]

/-- editor.js `handleKeyDown`, from the point where the undo/redo target
block id has been selected (the selection itself walks the JavaScript
object `undoStacks` in insertion order via `peekUndoBlockId` /
`peekRedoBlockId`; the claims quantify over the selected target, so the
target id is a parameter here).  Scenario 1 applies the action in
place on the focused block; scenario 2 checks the lock held by another
session, then simulates lock / update / unlock around the historical
content, clearing the block's history afterwards for undo only.
`ws.sendMessage` is modelled as always reaching the open socket. -/
def performGlobalAction (st : EditorState) (action : ActionType) (targetBlockId : String) :
    GlobalActionResult :=
  match st.dom targetBlockId with
  | none =>
    -- target block no longer in the DOM: notification only, and for undo
    -- the call to the non-existent clearAllRedoStacks throws, mutating
    -- nothing.
    { state := st, msgs := [], threw := action = ActionType.undo }
  | some elem =>
    if st.typingBlockId = some targetBlockId ∧ elem.contentEditable = true then
      -- Scenario 1: focused on the target block.
      match actionResult st action targetBlockId with
      | (none, _) => { state := st, msgs := [], threw := false }
      | (some content, ur1) =>
        let st1 := { st with
          ur := ur1
          dom := updFun st.dom targetBlockId (some { elem with content := content }) }
        { state := st1
          msgs := sendSpecificBlockUpdate st1 targetBlockId content (getBlockMetadata st1 targetBlockId)
          threw := false }
    else
      -- Scenario 2: not focused on the target block.
      if isBlockLockedByOther st targetBlockId then
        -- rejection: notification only; for undo the call to the
        -- non-existent clearAllRedoStacks throws, mutating nothing.
        { state := st, msgs := [], threw := action = ActionType.undo }
      else
        match actionResult st action targetBlockId with
        | (none, _) => { state := st, msgs := [], threw := false }
        | (some content, ur1) =>
          let st1 := { st with
            ur := ur1
            dom := updFun st.dom targetBlockId (some { elem with content := content }) }
          let metadata := getBlockMetadata st1 targetBlockId
          let msgs := [Msg.lock_block st.currentDocId targetBlockId,
                       Msg.update_document st.currentDocId targetBlockId content metadata,
                       Msg.unlock_block st.currentDocId targetBlockId]
          let st2 :=
            if action = ActionType.undo then
              { st1 with ur := clearBlockHistory st1.ur targetBlockId }
            else st1
          { state := st2, msgs := msgs, threw := false }

/-! ### editor.js: input throttling -/

/-- config.js `CHAR_UPDATE_THRESHOLD`. -/
def CHAR_UPDATE_THRESHOLD : Nat := 20

/-- config.js `TIME_UPDATE_THRESHOLD_MS`. -/
def TIME_UPDATE_THRESHOLD_MS : Nat := 8000

/-- editor.js `sendCurrentBlockUpdate(force)`: sends the tracked block's
content unless nothing is tracked, nothing changed (and the send is not
forced), the element is gone, non-editable, or has no metadata; on a
send (attempt) the edit counter and idle timer are reset. -/
def sendCurrentBlockUpdate (st : EditorState) (force : Bool) : EditorState × List Msg :=
  match st.typingBlockId with
  | none => (st, [])
  | some blockId =>
    if force = false ∧ st.charCount = 0 then (st, [])
    else
      match st.dom blockId with
      | none => (st, [])
      | some elem =>
        if elem.contentEditable = false then (st, [])
        else
          match getBlockMetadata st blockId with
          | none => (st, [])
          | some m =>
            ({ st with charCount := 0, timer := none },
             sendSpecificBlockUpdate st blockId elem.content (some m))

/-- editor.js `handleBlockInput`: on an input event inside the tracked,
editable block, pushes the new content onto the undo stack, bumps the
edit counter, clears the pending idle timer, and either sends
immediately (at the edit-count threshold) or re-arms the idle timer. -/
def handleBlockInput (st : EditorState) (blockId : String) : EditorState × List Msg :=
  match st.dom blockId with
  | none => (st, [])
  | some elem =>
    if elem.contentEditable = false ∨ st.typingBlockId ≠ some blockId then (st, [])
    else
      let st1 := { st with
        ur := pushState st.ur blockId elem.content
        charCount := st.charCount + 1
        timer := none }
      if CHAR_UPDATE_THRESHOLD ≤ st1.charCount then
        sendCurrentBlockUpdate st1 false
      else
        ({ st1 with timer := some TIME_UPDATE_THRESHOLD_MS }, [])

/-- editor.js `handleBlockBlur`, the settled state of its 150 ms timeout:
when focus has really moved away from the tracked block, the pending
content is sent with force, the local lock (if held) is released over
the WebSocket, and the typing state is reset. -/
def handleBlockBlurSettled (st : EditorState) (blockIdLosingFocus : String)
    (newlyFocusedBlockId : Option String) : EditorState × List Msg :=
  if st.typingBlockId ≠ some blockIdLosingFocus then (st, [])
  else if newlyFocusedBlockId = some blockIdLosingFocus then (st, [])
  else
    let r1 := sendCurrentBlockUpdate st true
    let st1 := r1.1
    let r2 :=
      if st1.activeLocks blockIdLosingFocus then
        ({ st1 with activeLocks := updFun st1.activeLocks blockIdLosingFocus false },
         [Msg.unlock_block st1.currentDocId blockIdLosingFocus])
      else (st1, [])
    let st2 := r2.1
    let st3 :=
      if st2.typingBlockId = some blockIdLosingFocus then
        { st2 with typingBlockId := none, charCount := 0, timer := none }
      else st2
    (st3, r1.2 ++ r2.2)

/-! ### websocket.js: bounded reconnection -/

/-- websocket.js `MAX_RECONNECT_ATTEMPTS`. -/
def MAX_RECONNECT_ATTEMPTS : Nat := 5

/-- websocket.js `RECONNECT_DELAY` in milliseconds. -/
def RECONNECT_DELAY : Nat := 3000

/-- Observable outcome of one `socket.onclose` invocation: the value of
`reconnectAttempts` afterwards, the delay of the reconnect scheduled by
`setTimeout` (if any), whether the permanent could-not-reconnect
notification fired, and whether the disconnected banner was shown. -/
structure WsCloseOutcome where
  attempts : Nat
  scheduled : Option Nat
  surfacedFailure : Bool
  bannerShown : Bool
deriving DecidableEq, Repr

/-- websocket.js `socket.onclose`: always shows the disconnected banner;
below the retry ceiling it increments the attempt counter and schedules
a reconnect after `RECONNECT_DELAY * attempts`; at the ceiling it stops
retrying and surfaces the permanent failure notification. -/
def onCloseEvent (reconnectAttempts : Nat) : WsCloseOutcome :=
  if reconnectAttempts < MAX_RECONNECT_ATTEMPTS then
    { attempts := reconnectAttempts + 1
      scheduled := some (RECONNECT_DELAY * (reconnectAttempts + 1))
      surfacedFailure := false
      bannerShown := true }
  else
    { attempts := reconnectAttempts
      scheduled := none
      surfacedFailure := true
      bannerShown := true }

/-- The attempt counter after `n` consecutive close events with no
intervening successful open (which would reset it to 0). -/
def attemptsAfter : Nat → Nat
  | 0 => 0
  | n + 1 => (onCloseEvent (attemptsAfter n)).attempts

/-- The outcome of the `i`-th (0-based) close event in a run of
consecutive closes starting from a fresh connection. -/
def outcomeOfClose (i : Nat) : WsCloseOutcome :=
  onCloseEvent (attemptsAfter i)

/-- How many of the first `n` consecutive close events scheduled a
reconnection attempt. -/
def countScheduled (n : Nat) : Nat :=
  ((List.range n).filter (fun i => (outcomeOfClose i).scheduled.isSome)).length

/-! ### block_actions.js: table reassembly -/

/-- Numeric value of a list of decimal digit characters. -/
def digitsVal (ds : List Char) : Nat :=
  ds.foldl (fun a c => 10 * a + (c.toNat - 48)) 0

/-- JavaScript `parseInt(s, 10)` on a dataset attribute: `none` models
NaN (including a missing attribute, since `parseInt(undefined, 10)` is
NaN).  Leading whitespace is skipped, an optional sign is honoured, and
trailing non-digits are ignored. -/
def parseIntJs (s0 : Option String) : Option Int :=
  match s0 with
  | none => none
  | some s =>
    let cs := s.data.dropWhile (fun ch => ch = ' ' ∨ ch = '\t' ∨ ch = '\n' ∨ ch = '\r')
    match cs with
    | '-' :: rest =>
      let ds := rest.takeWhile Char.isDigit
      if ds.isEmpty then none else some (-(Int.ofNat (digitsVal ds)))
    | '+' :: rest =>
      let ds := rest.takeWhile Char.isDigit
      if ds.isEmpty then none else some (Int.ofNat (digitsVal ds))
    | _ =>
      let ds := cs.takeWhile Char.isDigit
      if ds.isEmpty then none else some (Int.ofNat (digitsVal ds))

/-- The slice of a table-cell element that `reassembleTable` reads: its
raw `data-row-index` / `data-col-index` attributes, parent table id and
content. -/
structure CellElem where
  rowIndexAttr : Option String
  colIndexAttr : Option String
  parentBlockId : String
  content : String
deriving DecidableEq, Repr

/-- A thrown JavaScript error. -/
inductive JsError where
  | referenceError : String → JsError
deriving DecidableEq, Repr

/-- The cell-grouping `forEach` of block_actions.js `reassembleTable`
(lines 1285-1294 of the concatenated source): cells whose indices do
not parse are skipped, but the statement sequence `rows[r][c] = cell; t`
evaluates the undeclared identifier `t` right after the first insertion,
raising a ReferenceError. -/
def reassembleLoop : List CellElem → Except JsError Unit
  | [] => Except.ok ()
  | cell :: rest =>
    match parseIntJs cell.rowIndexAttr, parseIntJs cell.colIndexAttr with
    | some _, some _ => Except.error (JsError.referenceError "t")
    | _, _ => reassembleLoop rest

/-- Allowed characters of the width-sanitizing regular expression
`^[a-zA-Z0-9%. -]+$` in `reassembleTable`. -/
def widthCharOk (ch : Char) : Bool :=
  ch.isAlpha ∨ ch.isDigit ∨ ch = '%' ∨ ch = '.' ∨ ch = ' ' ∨ ch = '-'

/-- The per-column width applied by the `reassembleTable` colgroup
rebuild: a missing or empty entry falls back to `auto`
(`colWidths[i] || 'auto'`), and a string rejected by the regular
expression falls back to `auto`; an accepted string is applied verbatim
with no minimum-width clamping. -/
def sanitizeWidthReassemble (w : Option String) : String :=
  let width :=
    match w with
    | some s => if s = "" then "auto" else s
    | none => "auto"
  if width.data ≠ [] ∧ width.data.all widthCharOk then width else "auto"

/-- The cells of `reassembleTable`'s grouping object with parseable
indices, in document order. -/
def gatherCells : List CellElem → List (Int × Int × CellElem)
  | [] => []
  | cell :: rest =>
    match parseIntJs cell.rowIndexAttr, parseIntJs cell.colIndexAttr with
    | some r, some c => (r, c, cell) :: gatherCells rest
    | _, _ => gatherCells rest

/-- Lookup in the grouping object `rows[r][c]`; a later assignment to the
same coordinates overwrites an earlier one, so the last entry wins. -/
def lookupCell (entries : List (Int × Int × CellElem)) (r c : Int) : Option CellElem :=
  match (entries.filter (fun e => e.1 = r ∧ e.2.1 = c)).getLast? with
  | some e => some e.2.2
  | none => none

/-- `maxRow` accumulated by the grouping loop (starts at -1). -/
def maxRowOf (entries : List (Int × Int × CellElem)) : Int :=
  entries.foldl (fun m e => max m e.1) (-1)

/-- `maxCol` accumulated by the grouping loop (starts at -1). -/
def maxColOf (entries : List (Int × Int × CellElem)) : Int :=
  entries.foldl (fun m e => max m e.2.1) (-1)

/-- The empty placeholder `<td>` created for a grid position with no cell
element: it carries the position's row/col indices, the table's parent
id, and a blank content. -/
def placeholderCell (tableId : String) (r c : Nat) : CellElem :=
  { rowIndexAttr := some (toString r)
    colIndexAttr := some (toString c)
    parentBlockId := tableId
    content := " " }

/-- block_actions.js `reassembleTable` as written, over the cell elements
matching the table and the parsed `options.columns` width list: the
grouping loop raises a ReferenceError (the stray identifier `t`) on the
first cell with parseable indices, so only a cell list with no
parseable indices reaches the grid-building phase, with
`maxRow = maxCol = -1` and hence an empty grid and empty colgroup. -/
def reassembleTable (tableId : String) (cellElements : List CellElem)
    (optionColumns : List String) : Except JsError (List (List CellElem) × List String) :=
  match reassembleLoop cellElements with
  | Except.error e => Except.error e
  | Except.ok _ =>
    let entries := gatherCells cellElements
    let numRows := (maxRowOf entries + 1).toNat
    let numCols := (maxColOf entries + 1).toNat
    let grid := (List.range numRows).map (fun r =>
      (List.range numCols).map (fun c =>
        match lookupCell entries (Int.ofNat r) (Int.ofNat c) with
        | some cell => cell
        | none => placeholderCell tableId r c))
    let widths := (List.range numCols).map (fun i => sanitizeWidthReassemble optionColumns[i]?)
    Except.ok (grid, widths)

/-- block_actions.js `reassembleTable` with the stray identifier `t`
removed (the evident intent of the surrounding code and of its own
documentation comment): group the cells, build a `(maxRow+1) ×
(maxCol+1)` grid filling gaps with placeholder cells, and sanitize the
column widths. -/
def reassembleTableIntended (tableId : String) (cellElements : List CellElem)
    (optionColumns : List String) : List (List CellElem) × List String :=
  let entries := gatherCells cellElements
  let numRows := (maxRowOf entries + 1).toNat
  let numCols := (maxColOf entries + 1).toNat
  let grid := (List.range numRows).map (fun r =>
    (List.range numCols).map (fun c =>
      match lookupCell entries (Int.ofNat r) (Int.ofNat c) with
      | some cell => cell
      | none => placeholderCell tableId r c))
  let widths := (List.range numCols).map (fun i => sanitizeWidthReassemble optionColumns[i]?)
  (grid, widths)

/-! ### table_actions.js: remote column-width application -/

/-- table_actions.js `MIN_COL_WIDTH` (pixels). -/
def MIN_COL_WIDTH : ℚ := 30

/-- table_actions.js `DEFAULT_COL_WIDTH` (pixels). -/
def DEFAULT_COL_WIDTH : ℚ := 100

/-- JavaScript `parseFloat` restricted to the decimal forms that column
width strings take (optional sign, digits, optional fractional part;
trailing non-numeric text such as `px` is ignored).  `none` models NaN. -/
def parseFloatJs (s : String) : Option ℚ :=
  let cs := s.data.dropWhile (fun ch => ch = ' ' ∨ ch = '\t' ∨ ch = '\n' ∨ ch = '\r')
  let signed :=
    match cs with
    | '-' :: rest => (true, rest)
    | '+' :: rest => (false, rest)
    | _ => (false, cs)
  let intDigits := signed.2.takeWhile Char.isDigit
  let afterInt := signed.2.dropWhile Char.isDigit
  let fracDigits :=
    match afterInt with
    | '.' :: r => r.takeWhile Char.isDigit
    | _ => []
  if intDigits.isEmpty ∧ fracDigits.isEmpty then none
  else
    let v : ℚ := (digitsVal intDigits : ℚ) + (digitsVal fracDigits : ℚ) / ((10 : ℚ) ^ fracDigits.length)
    some (if signed.1 then -v else v)

/-- Whether a string ends in the two characters `px`. -/
def endsInPx (s : String) : Bool :=
  match s.data.reverse with
  | 'x' :: 'p' :: _ => true
  | _ => false

/-- A column width as applied to `col.style.width`. -/
inductive ColWidthStyle where
  | px : ℚ → ColWidthStyle
  | auto : ColWidthStyle
deriving DecidableEq, Repr

/-- table_actions.js `handleRemoteOptionsUpdated`, per-width logic (lines
282-293 of part_003): the width defaults to `DEFAULT_COL_WIDTH`; a
`px`-suffixed string parsing to at least the minimum is kept, one
parsing below the minimum is raised to the minimum; everything else
(including a malformed string) keeps the pixel default — the applied
style is always a pixel width, never `auto`. -/
def sanitizeWidthRemote (width : String) : ColWidthStyle :=
  let safeWidth : ℚ :=
    if endsInPx width then
      match parseFloatJs width with
      | some pxVal => if MIN_COL_WIDTH ≤ pxVal then pxVal else MIN_COL_WIDTH
      | none => DEFAULT_COL_WIDTH
    else DEFAULT_COL_WIDTH
  ColWidthStyle.px safeWidth

/-! ### Concrete states used by witnesses and counterexamples -/

/-- Folding a sequence of local edits through `pushState`. -/
def applyPushes (st : UndoRedoState) (ops : List (String × String)) : UndoRedoState :=
  ops.foldl (fun acc op => pushState acc op.1 op.2) st

/-- An undo stack filled to exactly `MAX_HISTORY` entries, ending in "a". -/
def bigStack : List String := List.replicate 4999 "x" ++ ["a"]

/-- Undo/redo state whose block "b1" has a full undo stack. -/
def fullStackState : UndoRedoState :=
  { undoStacks := updFun (fun _ => none) "b1" (some bigStack)
    redoStacks := updFun (fun _ => none) "b1" (some []) }

/-- Undo/redo state with a one-entry undo stack and a one-entry redo
stack for block "b1". -/
def smallStackState : UndoRedoState :=
  { undoStacks := updFun (fun _ => none) "b1" (some ["a"])
    redoStacks := updFun (fun _ => none) "b1" (some ["r"]) }

/-- Undo/redo state with three undo entries and one redo entry for
block "b1". -/
def threeStackState : UndoRedoState :=
  { undoStacks := updFun (fun _ => none) "b1" (some ["a", "b", "c"])
    redoStacks := updFun (fun _ => none) "b1" (some ["r"]) }

/-- Undo/redo state with a single undo entry and an empty redo stack for
block "b1" (undo and redo both unavailable). -/
def oneEntryState : UndoRedoState :=
  { undoStacks := updFun (fun _ => none) "b1" (some ["a"])
    redoStacks := updFun (fun _ => none) "b1" (some []) }

/-- A fresh editor: nothing loaded, no username acknowledged yet. -/
def emptyEditor : EditorState :=
  { ur := initialUndoRedo
    currentDocId := none
    currentUsername := JsStr.null
    dom := fun _ => none
    metaCache := fun _ => none
    activeLocks := fun _ => false
    typingBlockId := none
    charCount := 0
    timer := none }

/-- An ordinary editable text block element. -/
def elemPlain : BlockElem :=
  { tagName := "DIV"
    blockType := some "text"
    contentEditable := true
    classes := ["default-text"]
    title := ""
    content := "hello" }

/-- A block element styled as locked by the user alice. -/
def elemLockedByAlice : BlockElem :=
  { tagName := "DIV"
    blockType := some "text"
    contentEditable := false
    classes := ["default-text", "locked"]
    title := "Locked by alice"
    content := "hello" }

/-- Editor with document "d" loaded as user bob, block "b1" present and
editable, and two undo entries accumulated for "b1". -/
def c1State : EditorState :=
  { emptyEditor with
    ur := { undoStacks := updFun (fun _ => none) "b1" (some ["x", "y"])
            redoStacks := updFun (fun _ => none) "b1" (some []) }
    currentDocId := some "d"
    currentUsername := JsStr.str "bob"
    dom := updFun (fun _ => none) "b1" (some elemPlain) }

/-- Like `c1State`, but block "b1" has no DOM element (as after a remote
deletion, which removes the element without touching the undo stacks). -/
def c1CexState : EditorState :=
  { c1State with dom := fun _ => none }

/-- A `document_updated` payload for block "b1" of document "d". -/
def c1RemotePayload : RemoteUpdatePayload :=
  { document_id := "d", block_id := "b1", content_html := "new", metadata := none }

/-- A `block_locked` payload naming alice, as broadcast to bob. -/
def c1LockPayload : LockPayload :=
  { document_id := "d", block_id := "b1"
    locked_by := JsStr.str "alice", unlocked_by := JsStr.undef }

/-- Editor with document "d" loaded as bob, block "b1" present, editable
and not focused, two undo entries and two redo entries for "b1". -/
def c2State : EditorState :=
  { emptyEditor with
    ur := { undoStacks := updFun (fun _ => none) "b1" (some ["u0", "u1"])
            redoStacks := updFun (fun _ => none) "b1" (some ["r1", "r2"]) }
    currentDocId := some "d"
    currentUsername := JsStr.str "bob"
    dom := updFun (fun _ => none) "b1" (some elemPlain) }

/-- Like `c2State`, but block "b1" carries alice's lock styling. -/
def c2LockedState : EditorState :=
  { c2State with dom := updFun (fun _ => none) "b1" (some elemLockedByAlice) }

/-- Editor focused on block "b1" with no unsent edits. -/
def c4StateLow : EditorState :=
  { c1State with typingBlockId := some "b1", charCount := 0 }

/-- Editor focused on block "b1" with 19 unsent edits (one below the
threshold). -/
def c4StateHigh : EditorState :=
  { c1State with typingBlockId := some "b1", charCount := 19 }

/-- A table cell tagged (0,0) for table "t1". -/
def cell00 : CellElem :=
  { rowIndexAttr := some "0", colIndexAttr := some "0", parentBlockId := "t1", content := "c00" }

/-- A table cell tagged (1,1) for table "t1". -/
def cell11 : CellElem :=
  { rowIndexAttr := some "1", colIndexAttr := some "1", parentBlockId := "t1", content := "c11" }

/-! ### Helper lemmas: the undo/redo stacks -/

theorem pushState_undoStacks_char (st : UndoRedoState) (b s b2 : String) :
    (pushState st b s).undoStacks b2 =
      if b2 = b then some (pushResult ((st.undoStacks b).getD []) s)
      else st.undoStacks b2 := by
  rcases h : st.undoStacks b with _ | l
  · by_cases hb : b2 = b <;>
      simp [pushState, initStack, pushResult, h, updFun, hb]
  · by_cases hb : b2 = b
    · subst hb
      by_cases hlen : l.length = 0
      · simp [pushState, initStack, pushResult, h, hlen, updFun]
      · by_cases htop : l.getLast? = some s
        · simp [pushState, initStack, pushResult, h, hlen, htop, updFun]
        · by_cases hbound : MAX_HISTORY < (l ++ [s]).length <;>
            simp [pushState, initStack, pushResult, h, hlen, htop, hbound, updFun]
    · by_cases hlen : l.length = 0
      · simp [pushState, initStack, pushResult, h, hlen, updFun, hb]
      · by_cases htop : l.getLast? = some s
        · simp [pushState, initStack, pushResult, h, hlen, htop, updFun, hb]
        · by_cases hbound : MAX_HISTORY < (l ++ [s]).length <;>
            simp [pushState, initStack, pushResult, h, hlen, htop, hbound, updFun, hb]

theorem pushState_redoStacks_char (st : UndoRedoState) (b s b2 : String) :
    (pushState st b s).redoStacks b2 =
      if b2 = b then pushRedoResult ((st.undoStacks b).getD []) (st.redoStacks b) s
      else st.redoStacks b2 := by
  rcases h : st.undoStacks b with _ | l
  · by_cases hb : b2 = b <;>
      simp [pushState, initStack, pushRedoResult, h, updFun, hb]
  · rcases hr : st.redoStacks b with _ | r
    · by_cases hb : b2 = b
      · subst hb
        by_cases hlen : l.length = 0
        · simp [pushState, initStack, pushRedoResult, h, hr, hlen, updFun]
        · by_cases htop : l.getLast? = some s <;>
            simp [pushState, initStack, pushRedoResult, h, hr, hlen, htop, updFun]
      · by_cases hlen : l.length = 0
        · simp [pushState, initStack, pushRedoResult, h, hr, hlen, updFun, hb]
        · by_cases htop : l.getLast? = some s <;>
            simp [pushState, initStack, pushRedoResult, h, hr, hlen, htop, updFun, hb]
    · by_cases hb : b2 = b
      · subst hb
        by_cases hlen : l.length = 0
        · simp [pushState, initStack, pushRedoResult, h, hr, hlen, updFun]
        · by_cases htop : l.getLast? = some s
          · simp [pushState, initStack, pushRedoResult, h, hr, hlen, htop, updFun]
          · by_cases hrlen : 0 < r.length <;>
              simp [pushState, initStack, pushRedoResult, h, hr, hlen, htop, hrlen, updFun]
      · by_cases hlen : l.length = 0
        · simp [pushState, initStack, pushRedoResult, h, hr, hlen, updFun, hb]
        · by_cases htop : l.getLast? = some s
          · simp [pushState, initStack, pushRedoResult, h, hr, hlen, htop, updFun, hb]
          · by_cases hrlen : 0 < r.length <;>
              simp [pushState, initStack, pushRedoResult, h, hr, hlen, htop, hrlen, updFun, hb]

theorem undo_fst_eq_none_iff (st : UndoRedoState) (b : String) :
    (undo st b).1 = none ↔ ((st.undoStacks b).getD []).length ≤ 1 := by
  rcases h : st.undoStacks b with _ | l
  · simp [undo, h]
  · by_cases hlen : l.length ≤ 1
    · simp [undo, h, hlen]
    · have hne : l.dropLast ≠ [] := by
        intro hc
        have := congrArg List.length hc
        simp [List.length_dropLast] at this
        omega
      simp [undo, h, hlen, List.getLast?_isSome, hne]

theorem undo_snd_of_none (st : UndoRedoState) (b : String)
    (h : (undo st b).1 = none) : (undo st b).2 = st := by
  rcases hs : st.undoStacks b with _ | l
  · simp [undo, hs]
  · by_cases hlen : l.length ≤ 1
    · simp [undo, hs, hlen]
    · exfalso
      have h2 := (undo_fst_eq_none_iff st b).mp h
      rw [hs] at h2
      simp only [Option.getD_some] at h2
      omega

theorem redo_fst_eq_none_iff (st : UndoRedoState) (b : String) :
    (redo st b).1 = none ↔ ((st.redoStacks b).getD []).length = 0 := by
  rcases h : st.redoStacks b with _ | r
  · simp [redo, h]
  · by_cases hlen : r.length = 0
    · simp [redo, h, hlen]
    · have hne : r ≠ [] := by
        intro hc; rw [hc] at hlen; simp at hlen
      obtain ⟨x, hx⟩ := Option.isSome_iff_exists.mp (List.getLast?_isSome.mpr hne)
      simp [redo, h, hlen, hx]

theorem redo_snd_of_none (st : UndoRedoState) (b : String)
    (h : (redo st b).1 = none) : (redo st b).2 = st := by
  rcases hs : st.redoStacks b with _ | r
  · simp [redo, hs]
  · by_cases hlen : r.length = 0
    · simp [redo, hs, hlen]
    · exfalso
      have h2 := (redo_fst_eq_none_iff st b).mp h
      rw [hs] at h2
      simp only [Option.getD_some] at h2
      omega

theorem clearBlockHistory_undo_getD (st : UndoRedoState) (b : String) :
    ((clearBlockHistory st b).undoStacks b).getD [] = [] := by
  rcases h : st.undoStacks b with _ | l <;> simp [clearBlockHistory, h, updFun]

theorem clearBlockHistory_redo_getD (st : UndoRedoState) (b : String) :
    ((clearBlockHistory st b).redoStacks b).getD [] = [] := by
  rcases hu : st.undoStacks b with _ | l <;>
    rcases hr : st.redoStacks b with _ | r <;>
      simp [clearBlockHistory, hu, hr, updFun]

theorem undo_fst_none_of_cleared (st : UndoRedoState) (b : String) :
    (undo (clearBlockHistory st b) b).1 = none := by
  rw [undo_fst_eq_none_iff, clearBlockHistory_undo_getD]
  simp

/-! ### Claims C10, C9, C3, C8: the undo/redo module -/

/-- Claim C10 (confirmed): `undo(b)` returns null exactly when b's undo
stack has at most one entry (a missing stack counting as empty), `redo(b)`
returns null exactly when b's redo stack is empty, and every null return
leaves the whole module state unchanged — no partial mutation on the
failure path. -/
theorem c10_null_paths (st : UndoRedoState) (b : String) :
    ((undo st b).1 = none ↔ ((st.undoStacks b).getD []).length ≤ 1) ∧
    ((redo st b).1 = none ↔ ((st.redoStacks b).getD []).length = 0) ∧
    ((undo st b).1 = none → (undo st b).2 = st) ∧
    ((redo st b).1 = none → (redo st b).2 = st) :=
  ⟨undo_fst_eq_none_iff st b, redo_fst_eq_none_iff st b,
   undo_snd_of_none st b, redo_snd_of_none st b⟩

/-- Witness for C10 at a concrete one-entry state: both operations return
null and leave the state untouched. -/
theorem c10_null_paths_witness :
    (undo oneEntryState "b1").2 = oneEntryState ∧
    (redo oneEntryState "b1").2 = oneEntryState :=
  ⟨(c10_null_paths oneEntryState "b1").2.2.1 (by decide),
   (c10_null_paths oneEntryState "b1").2.2.2 (by decide)⟩

/-- Claim C9 (confirmed): with at least two undo entries (and the block's
redo stack existing, as the module always creates the two together),
`redo(b)` right after `undo(b)` returns exactly the state that was on top
before the undo and restores both stacks, for every block id, to their
contents from before the undo. -/
theorem c9_redo_after_undo (st : UndoRedoState) (b : String) (stack rstack : List String)
    (hu : st.undoStacks b = some stack) (hr : st.redoStacks b = some rstack)
    (hlen : 2 ≤ stack.length) :
    (redo (undo st b).2 b).1 = stack.getLast? ∧
    (∀ b2, (redo (undo st b).2 b).2.undoStacks b2 = st.undoStacks b2 ∧
           (redo (undo st b).2 b).2.redoStacks b2 = st.redoStacks b2) := by
  have hne : stack ≠ [] := by intro hc; rw [hc] at hlen; simp at hlen
  rcases List.eq_nil_or_concat stack with hc | ⟨l2, x, hc⟩
  · exact absurd hc hne
  subst hc
  simp only [List.concat_eq_append] at hu hlen ⊢
  have hl2ne : l2 ≠ [] := by
    intro hc
    subst hc
    simp at hlen
  constructor
  · simp [undo, redo, hu, hr, hl2ne, updFun]
  · intro b2
    by_cases hb : b2 = b
    · subst hb
      simp [undo, redo, hu, hr, hl2ne, updFun]
    · simp [undo, redo, hu, hr, hl2ne, updFun, hb]

/-- Witness for C9 at a concrete three-entry state. -/
theorem c9_redo_after_undo_witness :
    (redo (undo threeStackState "b1").2 "b1").1 = some "c" ∧
    (redo (undo threeStackState "b1").2 "b1").2.undoStacks "b1" = some ["a", "b", "c"] ∧
    (redo (undo threeStackState "b1").2 "b1").2.redoStacks "b1" = some ["r"] := by
  have h := c9_redo_after_undo threeStackState "b1" ["a", "b", "c"] ["r"]
    (by decide) (by decide) (by decide)
  exact ⟨h.1.trans (by decide), (h.2 "b1").1.trans (by decide), (h.2 "b1").2.trans (by decide)⟩

/-- Claim C3 (corrected): with a non-empty undo stack, `pushState` with the
current top is a no-op on the whole state; with a different state it
appends and empties the redo stack, but when the stack already holds
`MAX_HISTORY` entries the oldest entry is also evicted, so the result is
the tail of the old stack plus the new state rather than a pure append. -/
theorem c3_push_dedup (st : UndoRedoState) (b s : String) (stack : List String)
    (hst : st.undoStacks b = some stack) (hne : stack ≠ []) :
    (stack.getLast? = some s → pushState st b s = st) ∧
    (stack.getLast? ≠ some s → stack.length < MAX_HISTORY →
      (pushState st b s).undoStacks b = some (stack ++ [s]) ∧
      ((pushState st b s).redoStacks b).getD [] = []) ∧
    (stack.getLast? ≠ some s → stack.length = MAX_HISTORY →
      (pushState st b s).undoStacks b = some (stack.tail ++ [s]) ∧
      ((pushState st b s).redoStacks b).getD [] = []) := by
  have hinit : initStack st b = st := by simp [initStack, hst]
  have hlen0 : ¬ stack.length = 0 := by simp [hne]
  have hredo : stack.getLast? ≠ some s →
      ((pushState st b s).redoStacks b).getD [] = [] := by
    intro htop
    have hchar2 := pushState_redoStacks_char st b s b
    rw [if_pos rfl, hst] at hchar2
    rw [hchar2]
    rcases hr : st.redoStacks b with _ | r
    · simp [pushRedoResult, hlen0, htop]
    · rcases r with _ | ⟨a, r2⟩ <;> simp [pushRedoResult, hlen0, htop]
  refine ⟨?_, ?_, ?_⟩
  · intro htop
    simp [pushState, hinit, hst, hlen0, htop]
  · intro htop hlt
    have hchar := pushState_undoStacks_char st b s b
    rw [if_pos rfl, hst] at hchar
    simp only [Option.getD_some] at hchar
    refine ⟨?_, hredo htop⟩
    rw [hchar]
    have hble : ¬ MAX_HISTORY < stack.length + 1 := by omega
    simp [pushResult, hlen0, htop, hble]
  · intro htop hfull
    have hchar := pushState_undoStacks_char st b s b
    rw [if_pos rfl, hst] at hchar
    simp only [Option.getD_some] at hchar
    refine ⟨?_, hredo htop⟩
    rw [hchar]
    have hble : MAX_HISTORY < stack.length + 1 := by omega
    have htail : (stack ++ [s]).tail = stack.tail ++ [s] := by
      rcases stack with _ | ⟨a, t⟩
      · exact absurd rfl hne
      · simp
    simp [pushResult, hlen0, htop, hble, htail]

/-- Counterexample for C3 as stated: on a full (5000-entry) stack whose
top differs from the pushed state, the resulting undo stack is not the
old stack with the new state appended — the oldest entry was evicted. -/
theorem c3_push_dedup_cex :
    (pushState fullStackState "b1" "b").undoStacks "b1" ≠ some (bigStack ++ ["b"]) := by
  have hchar := pushState_undoStacks_char fullStackState "b1" "b" "b1"
  rw [if_pos rfl] at hchar
  have hcur : (fullStackState.undoStacks "b1").getD [] = bigStack := rfl
  rw [hcur] at hchar
  have hlast : bigStack.getLast? = some "a" := by
    unfold bigStack
    exact List.getLast?_concat _
  have hlen : bigStack.length = 5000 := by
    unfold bigStack
    rw [List.length_append, List.length_replicate]
    decide
  have h0 : ¬ bigStack.length = 0 := by rw [hlen]; decide
  have h2 : bigStack.getLast? ≠ some "b" := by rw [hlast]; decide
  have h3 : MAX_HISTORY < bigStack.length + 1 := by rw [hlen]; decide
  have hps : pushResult bigStack "b" = (bigStack ++ ["b"]).tail := by
    simp [pushResult, h0, h2, h3]
  rw [hchar, hps]
  intro hcontra
  have h4 : ((bigStack ++ ["b"]).tail).length = (bigStack ++ ["b"]).length :=
    congrArg List.length (Option.some.inj hcontra)
  rw [List.length_tail, List.length_append, hlen] at h4
  simp at h4

/-- Witness for the amended C3 at a concrete one-entry state: pushing the
top again changes nothing; pushing a new state appends it and leaves the
redo stack empty. -/
theorem c3_push_dedup_witness :
    pushState smallStackState "b1" "a" = smallStackState ∧
    (pushState smallStackState "b1" "b").undoStacks "b1" = some ["a", "b"] ∧
    ((pushState smallStackState "b1" "b").redoStacks "b1").getD [] = [] := by
  have h := c3_push_dedup smallStackState "b1" "a" ["a"] (by decide) (by decide)
  have h2 := c3_push_dedup smallStackState "b1" "b" ["a"] (by decide) (by decide)
  have h3 := h2.2.1 (by decide) (by decide)
  exact ⟨h.1 (by decide), h3.1, h3.2⟩

/-- Helper: one `pushState` keeps every undo stack within `MAX_HISTORY`. -/
theorem pushResult_length_le (cur : List String) (s : String)
    (h : cur.length ≤ MAX_HISTORY) : (pushResult cur s).length ≤ MAX_HISTORY := by
  by_cases h0 : cur.length = 0
  · have h1 : (pushResult cur s).length = 1 := by simp [pushResult, h0]
    rw [h1, MAX_HISTORY]
    omega
  · by_cases htop : cur.getLast? = some s
    · simp [pushResult, h0, htop, h]
    · by_cases hb : MAX_HISTORY < cur.length + 1
      · have h1 : (pushResult cur s).length = cur.length := by
          simp [pushResult, h0, htop, hb]
        rw [h1]; exact h
      · have h1 : (pushResult cur s).length = cur.length + 1 := by
          simp [pushResult, h0, htop, hb]
        rw [h1]; omega

/-- Helper: every sequence of `pushState` calls preserves the history
bound. -/
theorem applyPushes_bounded (ops : List (String × String)) (st : UndoRedoState)
    (h : ∀ b l, st.undoStacks b = some l → l.length ≤ MAX_HISTORY) :
    ∀ b l, (applyPushes st ops).undoStacks b = some l → l.length ≤ MAX_HISTORY := by
  induction ops generalizing st with
  | nil => simpa [applyPushes] using h
  | cons op rest ih =>
    intro b l hl
    rw [show applyPushes st (op :: rest) = applyPushes (pushState st op.1 op.2) rest from rfl] at hl
    refine ih (pushState st op.1 op.2) ?_ b l hl
    intro b2 l2 hl2
    rw [pushState_undoStacks_char] at hl2
    by_cases hb : b2 = op.1
    · rw [if_pos hb] at hl2
      rw [← Option.some.inj hl2]
      apply pushResult_length_le
      rcases hs : st.undoStacks op.1 with _ | l0
      · simp [MAX_HISTORY]
      · simpa [hs] using h op.1 l0 hs
    · rw [if_neg hb] at hl2
      exact h b2 l2 hl2

/-- Claim C8 (confirmed): over any sequence of `pushState` calls from the
initial (empty) module state no undo stack ever exceeds `MAX_HISTORY`
entries, and a push onto a stack already at the bound evicts exactly the
oldest entry, keeping the remaining entries in order followed by the new
state. -/
theorem c8_bounded_history (ops : List (String × String)) (b s : String)
    (l stack : List String) (st : UndoRedoState)
    (hseq : (applyPushes initialUndoRedo ops).undoStacks b = some l)
    (hst : st.undoStacks b = some stack)
    (hfull : stack.length = MAX_HISTORY)
    (htop : stack.getLast? ≠ some s) :
    l.length ≤ MAX_HISTORY ∧
    (pushState st b s).undoStacks b = some (stack.tail ++ [s]) := by
  constructor
  · exact applyPushes_bounded ops initialUndoRedo
      (by intro b2 l2 h2; simp [initialUndoRedo] at h2) b l hseq
  · have hchar := pushState_undoStacks_char st b s b
    rw [if_pos rfl, hst] at hchar
    simp only [Option.getD_some] at hchar
    rw [hchar]
    have h0 : ¬ stack.length = 0 := by rw [hfull, MAX_HISTORY]; omega
    have hb : MAX_HISTORY < stack.length + 1 := by omega
    have htail : (stack ++ [s]).tail = stack.tail ++ [s] := by
      rcases stack with _ | ⟨a, t⟩
      · simp at h0
      · simp
    simp [pushResult, h0, htop, hb, htail]

/-- Witness for C8: a one-push sequence stays bounded, and a push onto the
concrete full stack evicts its oldest entry. -/
theorem c8_bounded_history_witness :
    (["a"] : List String).length ≤ MAX_HISTORY ∧
    (pushState fullStackState "b1" "b").undoStacks "b1" = some (bigStack.tail ++ ["b"]) := by
  have hlast : bigStack.getLast? = some "a" := by
    unfold bigStack
    exact List.getLast?_concat _
  have hlen : bigStack.length = MAX_HISTORY := by
    unfold bigStack MAX_HISTORY
    rw [List.length_append, List.length_replicate]
    decide
  exact c8_bounded_history [("b1", "a")] "b1" "b" ["a"] bigStack fullStackState
    (by decide) (by rfl) hlen (by rw [hlast]; decide)

/-! ### Claim C1: remote events invalidate local history -/

/-- Helper: a matching remote content update always clears the block's
history (the clearing happens before the handler looks the element up). -/
theorem handleRemoteUpdate_ur (st : EditorState) (p : RemoteUpdatePayload) (docId : String)
    (hdoc : st.currentDocId = some docId) (hp : p.document_id = docId) :
    (handleRemoteUpdate st p).ur = clearBlockHistory st.ur p.block_id := by
  unfold handleRemoteUpdate
  rw [hdoc, hp]
  simp only [ne_eq, not_true_eq_false, if_false, ite_false]
  split
  · rfl
  · split <;> rfl

/-- Helper: a matching `block_locked` by another party, for a block whose
element is in the DOM, clears the block's history. -/
theorem handleLockUpdate_locked_ur (st : EditorState) (q : LockPayload) (docId : String)
    (elem : BlockElem)
    (hdoc : st.currentDocId = some docId) (hq : q.document_id = docId)
    (hdom : st.dom q.block_id = some elem)
    (hlb : q.locked_by ≠ st.currentUsername)
    (hub : q.unlocked_by ≠ st.currentUsername) :
    (handleLockUpdate st LockEventType.block_locked q).ur =
      clearBlockHistory st.ur q.block_id := by
  unfold handleLockUpdate
  rw [hdoc, hq, hdom]
  simp only [ne_eq, not_true_eq_false, if_false, ite_false]
  rw [if_pos (not_or_intro hlb hub)]

/-- Claim C1 (corrected): a remote content update for the loaded document
always clears the target block's undo and redo stacks, so an immediately
following undo returns null; a `block_locked` event by another party does
the same, but only when the block's element is found in the DOM — when
the element is missing the handler returns before clearing, so the
block's history survives. -/
theorem c1_remote_invalidation (st : EditorState) (p : RemoteUpdatePayload)
    (q : LockPayload) (docId : String) (elem : BlockElem)
    (hdoc : st.currentDocId = some docId)
    (hp : p.document_id = docId)
    (hq : q.document_id = docId)
    (hdom : st.dom q.block_id = some elem)
    (hlb : q.locked_by ≠ st.currentUsername)
    (hub : q.unlocked_by ≠ st.currentUsername) :
    (((handleRemoteUpdate st p).ur.undoStacks p.block_id).getD [] = [] ∧
     ((handleRemoteUpdate st p).ur.redoStacks p.block_id).getD [] = [] ∧
     (undo (handleRemoteUpdate st p).ur p.block_id).1 = none) ∧
    (((handleLockUpdate st LockEventType.block_locked q).ur.undoStacks q.block_id).getD [] = [] ∧
     ((handleLockUpdate st LockEventType.block_locked q).ur.redoStacks q.block_id).getD [] = [] ∧
     (undo (handleLockUpdate st LockEventType.block_locked q).ur q.block_id).1 = none) := by
  rw [handleRemoteUpdate_ur st p docId hdoc hp,
      handleLockUpdate_locked_ur st q docId elem hdoc hq hdom hlb hub]
  exact ⟨⟨clearBlockHistory_undo_getD _ _, clearBlockHistory_redo_getD _ _,
          undo_fst_none_of_cleared _ _⟩,
         ⟨clearBlockHistory_undo_getD _ _, clearBlockHistory_redo_getD _ _,
          undo_fst_none_of_cleared _ _⟩⟩

/-- Witness for C1 at a concrete client state with two pushed edits: after
the remote update, and after alice's lock, undo on "b1" returns null. -/
theorem c1_remote_invalidation_witness :
    (undo (handleRemoteUpdate c1State c1RemotePayload).ur "b1").1 = none ∧
    (undo (handleLockUpdate c1State LockEventType.block_locked c1LockPayload).ur "b1").1
      = none := by
  have h := c1_remote_invalidation c1State c1RemotePayload c1LockPayload "d" elemPlain
    (by rfl) (by rfl) (by rfl) (by rfl) (by decide) (by decide)
  exact ⟨h.1.2.2, h.2.2.2⟩

/-- Counterexample for C1 as stated: when block "b1" has local history but
no DOM element (as after a remote deletion), a `block_locked` event by
another user leaves the history in place and undo still succeeds. -/
theorem c1_remote_invalidation_cex :
    (handleLockUpdate c1CexState LockEventType.block_locked c1LockPayload).ur.undoStacks "b1"
      = some ["x", "y"] ∧
    (undo (handleLockUpdate c1CexState LockEventType.block_locked c1LockPayload).ur "b1").1
      = some "x" := by
  constructor <;> decide

/-! ### Claim C2: keyboard undo/redo on a non-focused block -/

/-- Helper: the rejection path of the off-block action, when another
session holds the lock. -/
theorem performGlobalAction_locked (st : EditorState) (action : ActionType) (target : String)
    (elem : BlockElem) (hdom : st.dom target = some elem)
    (hsc1 : ¬ (st.typingBlockId = some target ∧ elem.contentEditable = true))
    (hlock : isBlockLockedByOther st target = true) :
    performGlobalAction st action target =
      { state := st, msgs := [], threw := action = ActionType.undo } := by
  unfold performGlobalAction
  rw [hdom]
  dsimp only
  rw [if_neg hsc1, hlock, if_pos rfl]

/-- Helper: the success path of the off-block action, with the lock free
and the historical content available. -/
theorem performGlobalAction_offblock (st : EditorState) (action : ActionType) (target : String)
    (elem : BlockElem) (hdom : st.dom target = some elem)
    (hsc1 : ¬ (st.typingBlockId = some target ∧ elem.contentEditable = true))
    (hlock : isBlockLockedByOther st target = false)
    (content : String) (ur1 : UndoRedoState)
    (hres : actionResult st action target = (some content, ur1)) :
    performGlobalAction st action target =
      (let st1 : EditorState :=
         { st with
           ur := ur1
           dom := updFun st.dom target (some { elem with content := content }) }
       let st2 := if action = ActionType.undo
         then { st1 with ur := clearBlockHistory st1.ur target } else st1
       { state := st2
         msgs := [Msg.lock_block st.currentDocId target,
                  Msg.update_document st.currentDocId target content (getBlockMetadata st1 target),
                  Msg.unlock_block st.currentDocId target]
         threw := false }) := by
  unfold performGlobalAction
  rw [hdom]
  dsimp only
  rw [if_neg hsc1, hlock, if_neg Bool.false_ne_true, hres]

/-- Claim C2 (corrected): for a keyboard undo/redo whose target block is
not the focused block, a lock held by another session rejects the
operation with no state change and no message; otherwise a successful
operation emits exactly lock_block, update_document with the historical
content, and unlock_block.  Afterwards the target's redo stack is empty
for undo operations only (undo clears both stacks); an off-block redo
merely pops the applied entry, leaving the rest of the redo stack in
place. -/
theorem c2_offblock_action (st : EditorState) (action : ActionType) (target : String)
    (elem : BlockElem)
    (hdom : st.dom target = some elem)
    (hfoc : st.typingBlockId ≠ some target) :
    (isBlockLockedByOther st target = true →
      (performGlobalAction st action target).state = st ∧
      (performGlobalAction st action target).msgs = []) ∧
    (isBlockLockedByOther st target = false →
      ∀ content, (actionResult st action target).1 = some content →
        (∃ md, (performGlobalAction st action target).msgs =
          [Msg.lock_block st.currentDocId target,
           Msg.update_document st.currentDocId target content md,
           Msg.unlock_block st.currentDocId target]) ∧
        (action = ActionType.undo →
          ((performGlobalAction st action target).state.ur.undoStacks target).getD [] = [] ∧
          ((performGlobalAction st action target).state.ur.redoStacks target).getD [] = []) ∧
        (action = ActionType.redo →
          (performGlobalAction st action target).state.ur.redoStacks target =
            (actionResult st action target).2.redoStacks target)) := by
  have hsc1 : ¬ (st.typingBlockId = some target ∧ elem.contentEditable = true) := by
    intro hc; exact hfoc hc.1
  constructor
  · intro hlock
    rw [performGlobalAction_locked st action target elem hdom hsc1 hlock]
    exact ⟨rfl, rfl⟩
  · intro hlock content hact
    rcases hres : actionResult st action target with ⟨c0, ur1⟩
    rw [hres] at hact
    have hact2 : c0 = some content := hact
    subst hact2
    rw [performGlobalAction_offblock st action target elem hdom hsc1 hlock content ur1 hres]
    dsimp only
    refine ⟨⟨_, rfl⟩, ?_, ?_⟩
    · intro ha
      subst ha
      exact ⟨clearBlockHistory_undo_getD _ _, clearBlockHistory_redo_getD _ _⟩
    · intro ha
      subst ha
      rw [if_neg (fun hc => ActionType.noConfusion hc)]

/-- Witness for the amended C2: on a concrete state, an off-block undo
emits the lock/update/unlock triple and leaves both stacks of the target
empty, and an off-block action on a block locked by another user emits
nothing. -/
theorem c2_offblock_action_witness :
    ((performGlobalAction c2State ActionType.undo "b1").state.ur.undoStacks "b1").getD [] = [] ∧
    ((performGlobalAction c2State ActionType.undo "b1").state.ur.redoStacks "b1").getD [] = [] ∧
    (∃ md, (performGlobalAction c2State ActionType.undo "b1").msgs =
      [Msg.lock_block (some "d") "b1",
       Msg.update_document (some "d") "b1" "u0" md,
       Msg.unlock_block (some "d") "b1"]) ∧
    (performGlobalAction c2LockedState ActionType.redo "b1").msgs = [] := by
  have h := c2_offblock_action c2State ActionType.undo "b1" elemPlain (by rfl) (by decide)
  have h2 := h.2 (by decide) "u0" (by decide)
  have hl := c2_offblock_action c2LockedState ActionType.redo "b1" elemLockedByAlice
    (by rfl) (by decide)
  exact ⟨(h2.2.1 rfl).1, (h2.2.1 rfl).2, h2.1, (hl.1 (by decide)).2⟩

/-- Counterexample for C2 as stated: an off-block redo on an unlocked
block proceeds (three messages emitted) yet leaves a non-empty redo
stack — only the applied entry is removed, nothing is cleared. -/
theorem c2_offblock_action_cex :
    (performGlobalAction c2State ActionType.redo "b1").msgs.length = 3 ∧
    (performGlobalAction c2State ActionType.redo "b1").state.ur.redoStacks "b1"
      = some ["r1"] := by
  constructor <;> decide

/-! ### Claim C4: outgoing update throttling -/

/-- Helper: a block with a DOM element always yields metadata. -/
theorem getBlockMetadata_isSome (st : EditorState) (b : String) (elem : BlockElem)
    (hdom : st.dom b = some elem) : ∃ m, getBlockMetadata st b = some m := by
  unfold getBlockMetadata
  rw [hdom]
  dsimp only
  rcases hm : st.metaCache b with _ | m
  · exact ⟨_, rfl⟩
  · exact ⟨m, rfl⟩

/-- Helper: with a tracked, present, editable block, a loaded document and
either the force flag or a non-zero edit count, `sendCurrentBlockUpdate`
emits exactly one `update_document` and resets the counter and timer. -/
theorem sendCurrentBlockUpdate_sends (st : EditorState) (b d : String) (elem : BlockElem)
    (m : BlockMetadata) (force : Bool)
    (hfoc : st.typingBlockId = some b)
    (hdom : st.dom b = some elem)
    (hedit : elem.contentEditable = true)
    (hdoc : st.currentDocId = some d)
    (hm : getBlockMetadata st b = some m)
    (hgo : force = true ∨ st.charCount ≠ 0) :
    sendCurrentBlockUpdate st force =
      ({ st with charCount := 0, timer := none },
       [Msg.update_document (some d) b elem.content (some m)]) := by
  unfold sendCurrentBlockUpdate
  rw [hfoc]
  dsimp only
  rw [if_neg (by rcases hgo with h | h <;> simp [h]), hdom]
  dsimp only
  rw [if_neg (by simp [hedit]), hm]
  dsimp only
  unfold sendSpecificBlockUpdate
  rw [hdoc]

/-- Claim C4 (confirmed): an input event on the tracked editable block
sends `update_document` immediately exactly when the edit count since the
last send reaches `CHAR_UPDATE_THRESHOLD`; below the threshold it sends
nothing and (re)arms the `TIME_UPDATE_THRESHOLD_MS` idle timer; and the
settled blur path forces a send regardless of the edit count — so no
update goes out per keystroke below the threshold. -/
theorem c4_throttled_updates (st : EditorState) (b d : String) (elem : BlockElem)
    (hdom : st.dom b = some elem) (hedit : elem.contentEditable = true)
    (hfoc : st.typingBlockId = some b) (hdoc : st.currentDocId = some d) :
    (st.charCount + 1 < CHAR_UPDATE_THRESHOLD →
      (handleBlockInput st b).2 = [] ∧
      (handleBlockInput st b).1.timer = some TIME_UPDATE_THRESHOLD_MS ∧
      (handleBlockInput st b).1.charCount = st.charCount + 1) ∧
    (CHAR_UPDATE_THRESHOLD ≤ st.charCount + 1 →
      ∃ md, (handleBlockInput st b).2 = [Msg.update_document (some d) b elem.content md] ∧
        (handleBlockInput st b).1.charCount = 0) ∧
    (∃ md rest, (handleBlockBlurSettled st b none).2 =
      Msg.update_document (some d) b elem.content md :: rest) := by
  have hcond : ¬ (elem.contentEditable = false ∨ st.typingBlockId ≠ some b) := by
    simp [hedit, hfoc]
  have hinput : handleBlockInput st b =
      (let st1 : EditorState :=
         { st with
           ur := pushState st.ur b elem.content
           charCount := st.charCount + 1
           timer := none }
       if CHAR_UPDATE_THRESHOLD ≤ st1.charCount then sendCurrentBlockUpdate st1 false
       else ({ st1 with timer := some TIME_UPDATE_THRESHOLD_MS }, [])) := by
    unfold handleBlockInput
    rw [hdom]
    dsimp only
    rw [if_neg hcond]
  refine ⟨?_, ?_, ?_⟩
  · intro hlt
    rw [hinput]
    dsimp only
    rw [if_neg (by omega)]
    exact ⟨rfl, rfl, rfl⟩
  · intro hge
    rw [hinput]
    dsimp only
    rw [if_pos hge]
    obtain ⟨m, hm⟩ := getBlockMetadata_isSome
      { st with
        ur := pushState st.ur b elem.content
        charCount := st.charCount + 1
        timer := none } b elem hdom
    rw [sendCurrentBlockUpdate_sends
      { st with
        ur := pushState st.ur b elem.content
        charCount := st.charCount + 1
        timer := none } b d elem m false hfoc hdom hedit hdoc hm
      (Or.inr (by show st.charCount + 1 ≠ 0; omega))]
    exact ⟨some m, rfl, rfl⟩
  · obtain ⟨m, hm⟩ := getBlockMetadata_isSome st b elem hdom
    have hsend := sendCurrentBlockUpdate_sends st b d elem m true hfoc hdom hedit hdoc hm
      (Or.inl rfl)
    unfold handleBlockBlurSettled
    rw [if_neg (by simp [hfoc]), if_neg (by simp), hsend]
    dsimp only
    exact ⟨some m, _, List.singleton_append⟩

/-- Witness for C4 at concrete states: with no pending edits an input
event sends nothing and arms the 8000 ms timer; with 19 pending edits the
20th sends exactly one update; and the blur path sends even with no
pending edits. -/
theorem c4_throttled_updates_witness :
    (handleBlockInput c4StateLow "b1").2 = [] ∧
    (handleBlockInput c4StateLow "b1").1.timer = some TIME_UPDATE_THRESHOLD_MS ∧
    (∃ md, (handleBlockInput c4StateHigh "b1").2 =
      [Msg.update_document (some "d") "b1" "hello" md] ∧
      (handleBlockInput c4StateHigh "b1").1.charCount = 0) ∧
    (∃ md rest, (handleBlockBlurSettled c4StateLow "b1" none).2 =
      Msg.update_document (some "d") "b1" "hello" md :: rest) := by
  have hlow := c4_throttled_updates c4StateLow "b1" "d" elemPlain
    (by rfl) (by rfl) (by rfl) (by rfl)
  have hhigh := c4_throttled_updates c4StateHigh "b1" "d" elemPlain
    (by rfl) (by rfl) (by rfl) (by rfl)
  have h1 := hlow.1 (by decide)
  exact ⟨h1.1, h1.2.1, hhigh.2.1 (by decide), hlow.2.2⟩

/-! ### Claim C5: bounded reconnection -/

theorem attemptsAfter_eq_min (n : Nat) : attemptsAfter n = min n MAX_RECONNECT_ATTEMPTS := by
  induction n with
  | zero => simp [attemptsAfter]
  | succ n ih =>
    rw [attemptsAfter, ih]
    unfold onCloseEvent
    by_cases h : min n MAX_RECONNECT_ATTEMPTS < MAX_RECONNECT_ATTEMPTS
    · rw [if_pos h]
      dsimp only
      omega
    · rw [if_neg h]
      dsimp only
      omega

theorem outcome_scheduled_lt (i : Nat) (h : i < MAX_RECONNECT_ATTEMPTS) :
    (outcomeOfClose i).scheduled = some (RECONNECT_DELAY * (i + 1)) := by
  have hmin : min i MAX_RECONNECT_ATTEMPTS = i := by omega
  unfold outcomeOfClose
  rw [attemptsAfter_eq_min, hmin]
  unfold onCloseEvent
  rw [if_pos h]

theorem outcome_scheduled_ge (i : Nat) (h : MAX_RECONNECT_ATTEMPTS ≤ i) :
    (outcomeOfClose i).scheduled = none ∧
    (outcomeOfClose i).surfacedFailure = true ∧
    (outcomeOfClose i).bannerShown = true := by
  have hmin : min i MAX_RECONNECT_ATTEMPTS = MAX_RECONNECT_ATTEMPTS := by omega
  unfold outcomeOfClose
  rw [attemptsAfter_eq_min, hmin]
  unfold onCloseEvent
  rw [if_neg (by omega)]
  exact ⟨rfl, rfl, rfl⟩

theorem countScheduled_eq_min (n : Nat) : countScheduled n = min n MAX_RECONNECT_ATTEMPTS := by
  induction n with
  | zero => simp [countScheduled]
  | succ n ih =>
    have hstep : countScheduled (n + 1) =
        countScheduled n + (if (outcomeOfClose n).scheduled.isSome then 1 else 0) := by
      unfold countScheduled
      rw [List.range_succ, List.filter_append, List.length_append]
      congr 1
      by_cases h : (outcomeOfClose n).scheduled.isSome <;> simp [h]
    rw [hstep, ih]
    rcases Nat.lt_or_ge n MAX_RECONNECT_ATTEMPTS with h | h
    · rw [if_pos (by rw [outcome_scheduled_lt n h]; rfl)]
      omega
    · rw [if_neg (by rw [(outcome_scheduled_ge n h).1]; simp)]
      omega

/-- Claim C5 (confirmed): over any run of consecutive close events the
client schedules at most `MAX_RECONNECT_ATTEMPTS` reconnects (exactly
`min n 5` over the first n closes); the delay of the i-th scheduled
attempt is `RECONNECT_DELAY * (i+1)`, strictly increasing from one
scheduled attempt to the next; and once the ceiling is reached a close
schedules nothing and instead surfaces the permanent disconnected
state. -/
theorem c5_bounded_reconnect (n i j di dj : Nat) :
    countScheduled n = min n MAX_RECONNECT_ATTEMPTS ∧
    (i < MAX_RECONNECT_ATTEMPTS →
      (outcomeOfClose i).scheduled = some (RECONNECT_DELAY * (i + 1))) ∧
    ((outcomeOfClose i).scheduled = some di → (outcomeOfClose j).scheduled = some dj →
      i < j → di < dj) ∧
    (MAX_RECONNECT_ATTEMPTS ≤ i →
      (outcomeOfClose i).scheduled = none ∧
      (outcomeOfClose i).surfacedFailure = true ∧
      (outcomeOfClose i).bannerShown = true) := by
  refine ⟨countScheduled_eq_min n, outcome_scheduled_lt i, ?_, outcome_scheduled_ge i⟩
  intro hdi hdj hij
  have hi : i < MAX_RECONNECT_ATTEMPTS := by
    by_contra hge
    rw [(outcome_scheduled_ge i (by omega)).1] at hdi
    exact Option.noConfusion hdi
  have hj : j < MAX_RECONNECT_ATTEMPTS := by
    by_contra hge
    rw [(outcome_scheduled_ge j (by omega)).1] at hdj
    exact Option.noConfusion hdj
  rw [outcome_scheduled_lt i hi] at hdi
  rw [outcome_scheduled_lt j hj] at hdj
  rw [← Option.some.inj hdi, ← Option.some.inj hdj]
  have hR : 0 < RECONNECT_DELAY := by unfold RECONNECT_DELAY; omega
  exact mul_lt_mul_of_pos_left (by omega) hR

/-- Witness for C5: seven consecutive closes schedule exactly five
reconnects, the second close schedules a 6000 ms delay, and the seventh
close schedules nothing and surfaces the failure. -/
theorem c5_bounded_reconnect_witness :
    countScheduled 7 = 5 ∧
    (outcomeOfClose 1).scheduled = some 6000 ∧
    (outcomeOfClose 6).scheduled = none ∧
    (outcomeOfClose 6).surfacedFailure = true := by
  have h := c5_bounded_reconnect 7 1 2 6000 9000
  have h6 := c5_bounded_reconnect 7 6 7 0 0
  refine ⟨?_, ?_, (h6.2.2.2 (by decide)).1, (h6.2.2.2 (by decide)).2.1⟩
  · rw [h.1]; decide
  · exact (h.2.1 (by decide)).trans (by decide)

/-! ### Claim C6: table reassembly -/

/-- Claim C6 (code_bug): as soon as the cell set contains one cell with
parseable row/col indices, `reassembleTable` raises a ReferenceError on
the stray identifier `t` in its grouping loop instead of producing a
grid; with the stray statement removed, the same code produces the full
`(maxRow+1) × (maxCol+1)` grid with empty placeholder cells (carrying
the position's indices and the table's id) at every missing position. -/
theorem c6_reassembly_stray_identifier :
    reassembleTable "t1" [cell00] ["auto"] = Except.error (JsError.referenceError "t") ∧
    reassembleTableIntended "t1" [cell00, cell11] [] =
      ([[cell00, placeholderCell "t1" 0 1], [placeholderCell "t1" 1 0, cell11]],
       ["auto", "auto"]) := by
  constructor
  · rfl
  · decide

/-! ### Claim C7: column-width sanitization -/

/-- Claim C7 (corrected): during a remote table-options update every
px-suffixed width below the minimum is raised to the minimum, one at or
above the minimum is kept, and every malformed width falls back to the
pixel default `DEFAULT_COL_WIDTH` — never to "auto"; during table
reassembly a malformed width string falls back to "auto", but widths are
applied verbatim with no minimum clamping.  Neither path can fail: both
sanitizers are total. -/
theorem c7_width_sanitization (w s : String) (q : ℚ) :
    (endsInPx w = true → parseFloatJs w = some q → q < MIN_COL_WIDTH →
      sanitizeWidthRemote w = ColWidthStyle.px MIN_COL_WIDTH) ∧
    (endsInPx w = true → parseFloatJs w = some q → MIN_COL_WIDTH ≤ q →
      sanitizeWidthRemote w = ColWidthStyle.px q) ∧
    (endsInPx w = false ∨ parseFloatJs w = none →
      sanitizeWidthRemote w = ColWidthStyle.px DEFAULT_COL_WIDTH) ∧
    (s.data.all widthCharOk = false → sanitizeWidthReassemble (some s) = "auto") ∧
    sanitizeWidthReassemble none = "auto" := by
  refine ⟨?_, ?_, ?_, ?_, rfl⟩
  · intro hpx hq hlt
    unfold sanitizeWidthRemote
    rw [hpx, if_pos rfl, hq]
    dsimp only
    rw [if_neg (not_le.mpr hlt)]
  · intro hpx hq hge
    unfold sanitizeWidthRemote
    rw [hpx, if_pos rfl, hq]
    dsimp only
    rw [if_pos hge]
  · rintro (h | h)
    · unfold sanitizeWidthRemote
      rw [h, if_neg Bool.false_ne_true]
    · unfold sanitizeWidthRemote
      by_cases hpx : endsInPx w = true
      · rw [hpx, if_pos rfl, h]
      · rw [if_neg hpx]
  · intro hbad
    unfold sanitizeWidthReassemble
    dsimp only
    by_cases hs : s = ""
    · subst hs
      simp at hbad
    · rw [if_neg hs]
      rw [if_neg (by intro hc; rw [hbad] at hc; exact Bool.noConfusion hc.2)]

/-- Counterexample for C7 as stated: the remote path maps the malformed
width "banana" to the 100-pixel default, not to "auto"; and the
reassembly path keeps "5px" — below the 30-pixel minimum — verbatim
instead of raising it. -/
theorem c7_width_sanitization_cex :
    sanitizeWidthRemote "banana" = ColWidthStyle.px DEFAULT_COL_WIDTH ∧
    sanitizeWidthRemote "banana" ≠ ColWidthStyle.auto ∧
    sanitizeWidthReassemble (some "5px") = "5px" := by
  refine ⟨?_, ?_, ?_⟩ <;> decide

/-- Witness for the amended C7 at concrete widths: "5px" is raised to the
minimum, "40px" is kept, "auto" falls back to the pixel default, and a
width with a character outside the allowed class falls back to "auto" in
the reassembly path. -/
theorem c7_width_sanitization_witness :
    sanitizeWidthRemote "5px" = ColWidthStyle.px MIN_COL_WIDTH ∧
    sanitizeWidthRemote "40px" = ColWidthStyle.px 40 ∧
    sanitizeWidthRemote "auto" = ColWidthStyle.px DEFAULT_COL_WIDTH ∧
    sanitizeWidthReassemble (some "b@d") = "auto" := by
  have hp5 : parseFloatJs "5px" = some 5 := by
    have h : parseFloatJs "5px" =
        some ((digitsVal ['5'] : ℚ) + (digitsVal ([] : List Char) : ℚ) / (10 : ℚ) ^ (0 : Nat)) :=
      rfl
    have hd5 : digitsVal ['5'] = 5 := rfl
    have hd0 : digitsVal ([] : List Char) = 0 := rfl
    rw [h, hd5, hd0]
    refine congrArg some ?_
    norm_num
  have hp40 : parseFloatJs "40px" = some 40 := by
    have h : parseFloatJs "40px" =
        some ((digitsVal ['4', '0'] : ℚ) + (digitsVal ([] : List Char) : ℚ) / (10 : ℚ) ^ (0 : Nat)) :=
      rfl
    have hd40 : digitsVal ['4', '0'] = 40 := rfl
    have hd0 : digitsVal ([] : List Char) = 0 := rfl
    rw [h, hd40, hd0]
    refine congrArg some ?_
    norm_num
  have h1 := c7_width_sanitization "5px" "b@d" 5
  have h2 := c7_width_sanitization "40px" "b@d" 40
  have h3 := c7_width_sanitization "auto" "b@d" 0
  exact ⟨h1.1 (by decide) hp5 (by decide),
         h2.2.1 (by decide) hp40 (by decide),
         h3.2.2.1 (Or.inl (by decide)),
         h1.2.2.2.1 (by decide)⟩

end Spectre
